import Mathlib

/-!
Shallow embedding of the ETH_faser analysis utilities
(`src/Utils/extract_features_all_ev.py` and `src/Utils/event_filter.py`).

Arrays (`numpy.ndarray`) are modelled by `NDArray`: a shape, a dtype tag and a
flat list of numeric element values.  An `.npz` archive is an association list
from field name to array.  The filesystem is a record holding the directory
listing (absent when the directory does not exist, in which case `os.listdir`
raises) and a read function returning either the archive contents or the
exception message raised while opening/reading the file.  Python exceptions
are modelled by `Except String`; a caught-and-printed message is returned as
data.  The multiprocessing pool of `load_variables_from_npz` applies the same
pure per-file task to each file and `pool.imap` preserves input order, so its
denotation is a sequential `List.map`; `num_workers` has no effect on the
result and is omitted.
-/

/-- Symbolic numpy dtype tag. -/
inductive Dtype where
  | float32
  | float64
  | int32
  | int64
  | object
deriving DecidableEq

/-- A numpy array: shape, dtype and flat (row-major) numeric contents. -/
structure NDArray where
  shape : List Nat
  dtype : Dtype
  data : List Int
deriving DecidableEq

/-- Contents of one `.npz` archive: named fields, each a numeric array. -/
abbrev FileData := List (String × NDArray)

/-- `data[var] if var in data else None` on an opened archive. -/
def lookupField (data : FileData) (v : String) : Option NDArray :=
  (data.find? (fun p => p.1 == v)).map Prod.snd

/-- `load_variables` (`extract_features_all_ev.py`): per-file task.  Opens the
archive; on success returns `{var: data[var] if var in data else None}`, on any
exception prints `Error loading {file}: {e}` and returns `{var: None}`.  The
first component is the list of printed messages. -/
def load_variables (file : String) (contents : Except String FileData)
    (variable_names : List String) : List String × List (String × Option NDArray) :=
  match contents with
  | Except.ok data => ([], variable_names.map (fun v => (v, lookupField data v)))
  | Except.error e =>
      (["Error loading " ++ file ++ ": " ++ e],
       variable_names.map (fun v => (v, none)))

/-- Dict lookup `entry[var]` on a per-file result, flattening the sentinel. -/
def entryLookup (entry : List (String × Option NDArray)) (v : String) : Option NDArray :=
  ((entry.find? (fun p => p.1 == v)).map Prod.snd).join

/-- The aggregation loop: `data_dict[var] = [entry[var] for entry in data_list
if entry[var] is not None]`, in file order. -/
def collectField (data_list : List (List (String × Option NDArray))) (v : String) :
    List NDArray :=
  data_list.filterMap (fun entry => entryLookup entry v)

/-- Key set of a Python dict comprehension over a list: unique keys in
first-occurrence order. -/
def firstDedup {α : Type} [DecidableEq α] : List α → List α
  | [] => []
  | x :: rest => x :: (firstDedup rest).filter (fun y => y != x)

/-- A field column after type normalization: either one stacked fixed-shape
numeric array (`np.array(lst, dtype=np.float32)`) or a ragged
`dtype=object` container of the per-file arrays. -/
inductive Column where
  | uniform : NDArray → Column
  | ragged : List NDArray → Column
deriving DecidableEq

/-- Dtype of a stacked column (`None` for the object container). -/
def columnDtype : Column → Option Dtype
  | Column.uniform a => some a.dtype
  | Column.ragged _ => none

/-- Per-field conversion of `load_variables_from_npz`: if the set of shapes of
the contributed arrays has exactly one element, `np.array(lst,
dtype=np.float32)` stacks them (shape `(len, *s)`, float32, row-major data);
otherwise `np.array(lst, dtype=object)` keeps them ragged. -/
def normalizeField (arrs : List NDArray) : Column :=
  match firstDedup (arrs.map NDArray.shape) with
  | [s] => Column.uniform ⟨arrs.length :: s, Dtype.float32, (arrs.map NDArray.data).flatten⟩
  | _ => Column.ragged arrs

/-- The filesystem visible to the loader: `listing` is `os.listdir folder`
(`none` when the directory does not exist) and `read` is `np.load` on a path
(`Except.error` carries the exception message). -/
structure FS where
  listing : Option (List String)
  read : String → Except String FileData

/-- `os.path.join(folder_path, f)` for a plain file name. -/
def pathJoin (folder f : String) : String := folder ++ "/" ++ f

/-- File-selection logic of `load_variables_from_npz`: filter the listing to
`.npz` names, join with the folder, truncate to `num_files` when given, and
finally replace the whole list by `file_selected` when given. -/
def selectFiles (names : List String) (folder : String) (num_files : Option Nat)
    (file_selected : Option (List String)) : List String :=
  let file_list := (names.filter (fun f => f.endsWith ".npz")).map (pathJoin folder)
  let file_list := match num_files with
    | some k => file_list.take k
    | none => file_list
  match file_selected with
  | some sel => sel
  | none => file_list

/-- The per-file results, in file order (`pool.imap` preserves order). -/
def dataListOf (fs : FS) (file_list variable_names : List String) :
    List (List (String × Option NDArray)) :=
  file_list.map (fun file => (load_variables file (fs.read file) variable_names).2)

/-- Aggregation plus type normalization: a dict keyed by the requested names
(unique, first-occurrence order, as a Python dict comprehension) whose value
for each name is the normalized column of its non-absent contributions. -/
def buildTable (fs : FS) (file_list variable_names : List String) :
    List (String × Column) :=
  (firstDedup variable_names).map
    (fun v => (v, normalizeField (collectField (dataListOf fs file_list variable_names) v)))

/-- `load_variables_from_npz`: `os.listdir` raises when the directory is
missing; otherwise the selected files are loaded and merged into the table.
Per-file failures are absorbed by `load_variables`. -/
def load_variables_from_npz (fs : FS) (folder_path : String)
    (variable_names : List String) (num_files : Option Nat)
    (file_selected : Option (List String)) : Except String (List (String × Column)) :=
  match fs.listing with
  | none => Except.error ("FileNotFoundError: " ++ folder_path)
  | some names =>
      Except.ok (buildTable fs (selectFiles names folder_path num_files file_selected)
        variable_names)

/-! ### Category filter (`event_filter.py`) -/

/-- The columns of the `data_filter` DataFrame used by `create_masked_dict`. -/
structure DataFilter where
  is_cc : List Int
  in_neutrino_pdg : List Int
  run_number : List Int
  event_id : List Int

/-- Elementwise `series == c` producing a boolean mask. -/
def colEqMask (xs : List Int) (c : Int) : List Bool := xs.map (fun x => x == c)

/-- Elementwise `&` of two boolean masks. -/
def maskAnd (a b : List Bool) : List Bool := List.zipWith (fun x y => x && y) a b

/-- Elementwise `|` of two boolean masks. -/
def maskOr (a b : List Bool) : List Bool := List.zipWith (fun x y => x || y) a b

/-- The mask construction of `create_masked_dict` (lines 97–107): flavor flags
are Python-truthy (nonzero); the neutral-current branch is taken whenever
`is_cc != 1`. -/
def create_mask (df : DataFilter) (is_cc is_nu_e is_nu_mu is_nu_tau : Int) : List Bool :=
  if is_cc = 1 then
    if is_nu_e ≠ 0 then
      maskAnd (colEqMask df.is_cc 1)
        (maskOr (colEqMask df.in_neutrino_pdg 12) (colEqMask df.in_neutrino_pdg (-12)))
    else if is_nu_mu ≠ 0 then
      maskAnd (colEqMask df.is_cc 1)
        (maskOr (colEqMask df.in_neutrino_pdg 14) (colEqMask df.in_neutrino_pdg (-14)))
    else if is_nu_tau ≠ 0 then
      maskAnd (colEqMask df.is_cc 1)
        (maskOr (colEqMask df.in_neutrino_pdg 16) (colEqMask df.in_neutrino_pdg (-16)))
    else
      colEqMask df.is_cc 1
  else
    colEqMask df.is_cc 0

/-- Boolean-mask indexing `series[mask]`. -/
def applyMask {α : Type} (xs : List α) (mask : List Bool) : List α :=
  (List.zip xs mask).filterMap (fun p => if p.2 then some p.1 else none)

/-- `create_masked_dict`: first component the printed messages, second the
returned dict (`[]` is the empty dict `{}` returned on the usage error).
Python raises nowhere in this function: every path returns. -/
def create_masked_dict (df : DataFilter) (is_cc is_nu_e is_nu_mu is_nu_tau : Int) :
    List String × List (String × List Int) :=
  let msgs :=
    if is_cc = 1 ∧ is_nu_e = 0 ∧ is_nu_mu = 0 ∧ is_nu_tau = 0 then
      ["Error: When is_cc is 1, at least one of the neutrino types should be 1."]
    else []
  if is_nu_e + is_nu_mu + is_nu_tau > 1 then
    (msgs ++ ["Error: Only one neutrino type can be selected."], [])
  else
    let mask := create_mask df is_cc is_nu_e is_nu_mu is_nu_tau
    (msgs, [("run_number", applyMask df.run_number mask),
            ("event_id", applyMask df.event_id mask)])

/-- A file counts for a field's column exactly when it opened successfully and
contained the field. -/
def fieldPresent (fs : FS) (v file : String) : Bool :=
  match fs.read file with
  | Except.ok data => (lookupField data v).isSome
  | Except.error _ => false

/-! ### Concrete fixtures used by witnesses and counterexamples -/

/-- A 1-d integer array of two event values, as a run-number field would be. -/
def arrA : NDArray := ⟨[2], Dtype.int64, [5, 6]⟩

/-- A second array with the same shape as `arrA`. -/
def arrB : NDArray := ⟨[2], Dtype.int64, [7, 8]⟩

/-- An array whose shape differs from `arrA` (ragged case). -/
def arrC : NDArray := ⟨[3], Dtype.float64, [1, 2, 3]⟩

/-- A directory with one archive holding only field `x`. -/
def fsOk : FS :=
  ⟨some ["a.npz"],
   fun p => if p = "d/a.npz" then Except.ok [("x", arrA)] else Except.error "missing"⟩

/-- A directory that exists but is empty. -/
def fsEmptyDir : FS := ⟨some [], fun _ => Except.error "unused"⟩

/-- A missing directory (`os.listdir` raises). -/
def fsNoDir : FS := ⟨none, fun _ => Except.error "unused"⟩

/-- A directory with two archives: `a.npz` has fields `x` and `y`, `b.npz`
has only `x`; any other path fails to read. -/
def fsTwo : FS :=
  ⟨some ["a.npz", "b.npz"],
   fun p =>
     if p = "d/a.npz" then Except.ok [("x", arrA), ("y", arrC)]
     else if p = "d/b.npz" then Except.ok [("x", arrB)]
     else Except.error "corrupt"⟩

/-! ### Helper lemmas -/

theorem mask_and_or_eq_zipWith (xs ys : List Int) (a b : Int) :
    maskAnd (colEqMask xs 1) (maskOr (colEqMask ys a) (colEqMask ys b))
      = List.zipWith (fun c p => c == 1 && (p == a || p == b)) xs ys := by
  induction xs generalizing ys with
  | nil => simp [maskAnd, colEqMask]
  | cons x xs ih =>
    cases ys with
    | nil => simp [maskAnd, maskOr, colEqMask]
    | cons y ys =>
      simp [maskAnd, maskOr, colEqMask, List.zipWith]

theorem getD_zipWith_and (a b : List Bool) (i : Nat) :
    (List.zipWith (fun x y => x && y) a b).getD i false
      = (a.getD i false && b.getD i false) := by
  induction a generalizing b i with
  | nil => simp [List.getD]
  | cons x xs ih =>
    cases b with
    | nil => simp [List.getD]
    | cons y ys =>
      cases i with
      | zero => simp [List.getD]
      | succ n => simpa [List.getD] using ih ys n

theorem getD_colEqMask (xs : List Int) (c : Int) (i : Nat) :
    (colEqMask xs c).getD i false = (xs.getD i (c + 1) == c) := by
  induction xs generalizing i with
  | nil =>
    simp only [colEqMask, List.map_nil, List.getD]
    simp [List.getD_nil]
  | cons x xs ih =>
    cases i with
    | zero => simp [colEqMask, List.getD]
    | succ n => simpa [colEqMask, List.getD] using ih n

theorem colEq_one_zero (xs : List Int) (i : Nat) :
    ((colEqMask xs 1).getD i false && (colEqMask xs 0).getD i false) = false := by
  induction xs generalizing i with
  | nil => simp [colEqMask, List.getD]
  | cons x xs ih =>
    cases i with
    | zero =>
      simp only [colEqMask, List.map_cons, List.getD_cons_zero]
      rcases eq_or_ne x 1 with hx | hx
      · subst hx; decide
      · simp [hx]
    | succ n =>
      simpa [colEqMask, List.getD_cons_succ] using ih n

/-- C3: with the charged-current flag set and one flavor requested,
`create_masked_dict`'s mask selects exactly the rows where `is_cc == 1` and
`in_neutrino_pdg` is the flavor's PDG code of either sign (±12 e, ±14 mu,
±16 tau); with CC set and no flavor, exactly the rows with `is_cc == 1`;
with CC cleared, exactly the rows with `is_cc == 0`, whatever the flavor
flags. -/
theorem create_mask_selects_exactly (df : DataFilter) (e m t : Int) :
    (create_mask df 1 1 0 0
      = List.zipWith (fun c p => c == 1 && (p == 12 || p == -12))
          df.is_cc df.in_neutrino_pdg)
  ∧ (create_mask df 1 0 1 0
      = List.zipWith (fun c p => c == 1 && (p == 14 || p == -14))
          df.is_cc df.in_neutrino_pdg)
  ∧ (create_mask df 1 0 0 1
      = List.zipWith (fun c p => c == 1 && (p == 16 || p == -16))
          df.is_cc df.in_neutrino_pdg)
  ∧ (create_mask df 1 0 0 0 = df.is_cc.map (fun c => c == 1))
  ∧ (create_mask df 0 e m t = df.is_cc.map (fun c => c == 0)) := by
  refine ⟨?_, ?_, ?_, ?_, ?_⟩
  · rw [create_mask, if_pos rfl, if_pos (by norm_num)]
    exact mask_and_or_eq_zipWith _ _ _ _
  · rw [create_mask, if_pos rfl, if_neg (by norm_num), if_pos (by norm_num)]
    exact mask_and_or_eq_zipWith _ _ _ _
  · rw [create_mask, if_pos rfl, if_neg (by norm_num), if_neg (by norm_num),
      if_pos (by norm_num)]
    exact mask_and_or_eq_zipWith _ _ _ _
  · rw [create_mask, if_pos rfl, if_neg (by norm_num), if_neg (by norm_num),
      if_neg (by norm_num)]
    rfl
  · rw [create_mask, if_neg (by norm_num)]
    rfl

/-- C4: for any single selection, a charged-current mask and the
neutral-current mask are disjoint: at no row index are both true. -/
theorem cc_nc_masks_disjoint (df : DataFilter) (e m t e2 m2 t2 : Int) (i : Nat) :
    ((create_mask df 1 e m t).getD i false
      && (create_mask df 0 e2 m2 t2).getD i false) = false := by
  have hnc : create_mask df 0 e2 m2 t2 = colEqMask df.is_cc 0 := by
    rw [create_mask, if_neg (by norm_num)]
  have key : ∀ z : List Bool,
      ((maskAnd (colEqMask df.is_cc 1) z).getD i false
        && (colEqMask df.is_cc 0).getD i false) = false := by
    intro z
    rw [maskAnd, getD_zipWith_and]
    have h10 := colEq_one_zero df.is_cc i
    cases h1 : (colEqMask df.is_cc 1).getD i false <;>
      cases h0 : (colEqMask df.is_cc 0).getD i false <;> simp_all
  rw [hnc, create_mask, if_pos rfl]
  by_cases he : e ≠ 0
  · rw [if_pos he]; exact key _
  · rw [if_neg he]
    by_cases hm : m ≠ 0
    · rw [if_pos hm]; exact key _
    · rw [if_neg hm]
      by_cases ht : t ≠ 0
      · rw [if_pos ht]; exact key _
      · rw [if_neg ht]; exact colEq_one_zero df.is_cc i

/-- C5: requesting more than one flavor (two or more of the 0/1 flags set
to 1) makes `create_masked_dict` print the usage error and return the empty
dict; no exception is raised (the function is total and returns on this
path). -/
theorem create_masked_dict_multi_flavor (df : DataFilter) (c e m t : Int)
    (he : e = 0 ∨ e = 1) (hm : m = 0 ∨ m = 1) (ht : t = 0 ∨ t = 1)
    (h2 : (e = 1 ∧ m = 1) ∨ (e = 1 ∧ t = 1) ∨ (m = 1 ∧ t = 1)) :
    create_masked_dict df c e m t
      = (["Error: Only one neutrino type can be selected."], []) := by
  have hwarn : ¬(c = 1 ∧ e = 0 ∧ m = 0 ∧ t = 0) := by
    rintro ⟨-, he0, hm0, ht0⟩
    rcases h2 with ⟨h, h'⟩ | ⟨h, h'⟩ | ⟨h, h'⟩ <;> omega
  have hsum : e + m + t > 1 := by
    rcases h2 with ⟨h, h'⟩ | ⟨h, h'⟩ | ⟨h, h'⟩ <;> rcases he with he | he <;>
      rcases hm with hm | hm <;> rcases ht with ht | ht <;> omega
  rw [create_masked_dict]
  simp only [if_neg hwarn, if_pos hsum, List.nil_append]

/-- Witness for C5 at a concrete call: `is_nu_e = is_nu_mu = 1`. -/
theorem create_masked_dict_multi_flavor_witness :
    create_masked_dict ⟨[1], [12], [7], [3]⟩ 1 1 1 0
      = (["Error: Only one neutrino type can be selected."], []) :=
  create_masked_dict_multi_flavor ⟨[1], [12], [7], [3]⟩ 1 1 1 0
    (Or.inr rfl) (Or.inr rfl) (Or.inl rfl) (Or.inl ⟨rfl, rfl⟩)

/-! ### Loader helper lemmas -/

theorem entryLookup_map (vars : List String) (g : String → Option NDArray) (v : String) :
    entryLookup (vars.map (fun u => (u, g u))) v
      = if v ∈ vars then g v else none := by
  induction vars with
  | nil => simp [entryLookup]
  | cons u us ih =>
    by_cases hv : u = v
    · subst hv
      simp [entryLookup, List.find?]
    · rw [List.map_cons]
      have hbeq : (u == v) = false := by
        simp [hv]
      have hfind : ((u, g u) :: us.map (fun w => (w, g w))).find? (fun p => p.1 == v)
          = (us.map (fun w => (w, g w))).find? (fun p => p.1 == v) := by
        simp [List.find?, hbeq]
      simp only [entryLookup] at ih ⊢
      rw [hfind, ih]
      have hv' : ¬v = u := fun h => hv h.symm
      simp [List.mem_cons, hv']

theorem entryLookup_allNone (vars : List String) (v : String) :
    entryLookup (vars.map (fun u => (u, (none : Option NDArray)))) v = none := by
  have h := entryLookup_map vars (fun _ => none) v
  simpa using h

theorem collectField_dataListOf (fs : FS) (file_list vars : List String) (v : String)
    (hv : v ∈ vars) :
    collectField (dataListOf fs file_list vars) v
      = file_list.filterMap (fun file =>
          match fs.read file with
          | Except.ok data => lookupField data v
          | Except.error _ => none) := by
  unfold collectField dataListOf
  rw [List.filterMap_map]
  congr 1
  funext file
  cases hr : fs.read file with
  | ok data =>
    simp only [Function.comp, load_variables, hr]
    rw [entryLookup_map]
    simp [hv]
  | error e =>
    simp only [Function.comp, load_variables, hr]
    rw [entryLookup_allNone]

theorem length_filterMap_eq {α β : Type} (l : List α) (f : α → Option β) :
    (l.filterMap f).length = (l.filter (fun a => (f a).isSome)).length := by
  induction l with
  | nil => rfl
  | cons x xs ih =>
    cases h : f x <;> simp [List.filterMap_cons, List.filter_cons, h, ih]

theorem mem_firstDedup {α : Type} [DecidableEq α] (x : α) (l : List α) :
    x ∈ firstDedup l ↔ x ∈ l := by
  induction l with
  | nil => simp [firstDedup]
  | cons y ys ih =>
    simp only [firstDedup, List.mem_cons, List.mem_filter, bne_iff_ne]
    constructor
    · rintro (h | ⟨h, -⟩)
      · exact Or.inl h
      · exact Or.inr (ih.mp h)
    · rintro (h | h)
      · exact Or.inl h
      · by_cases hxy : x = y
        · exact Or.inl hxy
        · exact Or.inr ⟨ih.mpr h, hxy⟩

theorem firstDedup_const {α : Type} [DecidableEq α] (l : List α) (s : α)
    (hne : l ≠ []) (hall : ∀ x ∈ l, x = s) : firstDedup l = [s] := by
  induction l with
  | nil => exact absurd rfl hne
  | cons x xs ih =>
    have hx : x = s := hall x (List.mem_cons_self x xs)
    subst hx
    cases xs with
    | nil => rfl
    | cons y ys =>
      have hrec : firstDedup (y :: ys) = [x] := by
        refine ih (List.cons_ne_nil y ys) ?_
        intro z hz
        exact hall z (List.mem_cons_of_mem x hz)
      show x :: (firstDedup (y :: ys)).filter (fun w => w != x) = [x]
      rw [hrec]
      simp

theorem normalizeField_nil : normalizeField [] = Column.ragged [] := rfl

/-- C1: a per-file exception is caught by `load_variables`, which logs the
failing path with the error message and returns the absent sentinel for every
requested field; such an entry contributes zero rows to every field's column,
and a batch whose file list contains the failing file still completes with a
table. -/
theorem load_failure_recovered (fs : FS) (file e folder : String)
    (vars : List String) (pre post : List (List (String × Option NDArray)))
    (v : String) (fl1 fl2 : List String) (names : List String) (nf : Option Nat)
    (hread : fs.read file = Except.error e) (hlist : fs.listing = some names) :
    (load_variables file (fs.read file) vars
      = (["Error loading " ++ file ++ ": " ++ e], vars.map (fun u => (u, none))))
  ∧ (collectField (pre ++ (load_variables file (fs.read file) vars).2 :: post) v
      = collectField (pre ++ post) v)
  ∧ (load_variables_from_npz fs folder vars nf (some (fl1 ++ file :: fl2))
      = Except.ok (buildTable fs (fl1 ++ file :: fl2) vars)) := by
  refine ⟨?_, ?_, ?_⟩
  · rw [hread]; rfl
  · rw [hread]
    show collectField (pre ++ (vars.map fun u => (u, (none : Option NDArray))) :: post) v
      = collectField (pre ++ post) v
    unfold collectField
    rw [List.filterMap_append, List.filterMap_append,
      List.filterMap_cons_none (by rw [entryLookup_allNone])]
  · rw [load_variables_from_npz, hlist]
    rfl

/-- Witness for C1: a one-file directory whose file fails to read. -/
theorem load_failure_recovered_witness :
    (load_variables "d/bad.npz" (fsOk.read "d/bad.npz") ["x"]
      = (["Error loading d/bad.npz: missing"], [("x", none)]))
  ∧ (collectField ([] ++ (load_variables "d/bad.npz" (fsOk.read "d/bad.npz") ["x"]).2 :: []) "x"
      = collectField ([] ++ []) "x")
  ∧ (load_variables_from_npz fsOk "d" ["x"] none (some ([] ++ "d/bad.npz" :: []))
      = Except.ok (buildTable fsOk ([] ++ "d/bad.npz" :: []) ["x"])) :=
  load_failure_recovered fsOk "d/bad.npz" "missing" "d" ["x"] [] [] "x" [] []
    ["a.npz"] none rfl rfl

/-- C2: when the directory exists and the requested field set is non-empty,
the loader returns a table whose keys are exactly the requested names (unique,
in first-request order), and a requested field to which no file contributed is
present with the empty array as its value. -/
theorem table_keys_exact (fs : FS) (folder : String) (vars : List String)
    (nf : Option Nat) (sel : Option (List String)) (names : List String)
    (v : String) (c : Column)
    (hlist : fs.listing = some names) (_hne : vars ≠ []) :
    (load_variables_from_npz fs folder vars nf sel
      = Except.ok (buildTable fs (selectFiles names folder nf sel) vars))
  ∧ ((buildTable fs (selectFiles names folder nf sel) vars).map Prod.fst
      = firstDedup vars)
  ∧ (v ∈ (buildTable fs (selectFiles names folder nf sel) vars).map Prod.fst
      ↔ v ∈ vars)
  ∧ ((v, c) ∈ buildTable fs (selectFiles names folder nf sel) vars →
      collectField (dataListOf fs (selectFiles names folder nf sel) vars) v = [] →
      c = Column.ragged []) := by
  have hkeys : (buildTable fs (selectFiles names folder nf sel) vars).map Prod.fst
      = firstDedup vars := by
    unfold buildTable
    rw [List.map_map]
    exact List.map_id (firstDedup vars)
  refine ⟨?_, hkeys, ?_, ?_⟩
  · rw [load_variables_from_npz, hlist]
  · rw [hkeys]
    exact mem_firstDedup v vars
  · intro hmem hempty
    unfold buildTable at hmem
    rcases List.mem_map.mp hmem with ⟨w, -, hw⟩
    have hwv : w = v := congrArg Prod.fst hw
    subst hwv
    have hc : normalizeField (collectField
        (dataListOf fs (selectFiles names folder nf sel) vars) w) = c :=
      congrArg Prod.snd hw
    rw [hempty, normalizeField_nil] at hc
    exact hc.symm

/-- Witness for C2: two requested fields, only `x` is present in the one
readable file, so `y`'s value is the empty (object) array. -/
theorem table_keys_exact_witness :
    (load_variables_from_npz fsOk "d" ["x", "y"] none none
      = Except.ok (buildTable fsOk (selectFiles ["a.npz"] "d" none none) ["x", "y"]))
  ∧ ((buildTable fsOk (selectFiles ["a.npz"] "d" none none) ["x", "y"]).map Prod.fst
      = firstDedup ["x", "y"])
  ∧ ("y" ∈ (buildTable fsOk (selectFiles ["a.npz"] "d" none none) ["x", "y"]).map Prod.fst
      ↔ "y" ∈ ["x", "y"])
  ∧ (("y", Column.ragged []) ∈ buildTable fsOk (selectFiles ["a.npz"] "d" none none) ["x", "y"] →
      collectField (dataListOf fsOk (selectFiles ["a.npz"] "d" none none) ["x", "y"]) "y" = [] →
      Column.ragged [] = Column.ragged []) := by
  have h := table_keys_exact fsOk "d" ["x", "y"] none none ["a.npz"] "y"
    (Column.ragged []) rfl (by simp)
  exact h

/-- C6: a successfully opened file lacking a requested field contributes no
row to that field while each present field contributes its array unchanged, in
file order; hence each requested field's column length equals the number of
files in which the field was present. -/
theorem missing_field_skipped (fs : FS) (file_list vars : List String)
    (v : String) (hv : v ∈ vars) :
    (collectField (dataListOf fs file_list vars) v
      = file_list.filterMap (fun file =>
          match fs.read file with
          | Except.ok data => lookupField data v
          | Except.error _ => none))
  ∧ ((collectField (dataListOf fs file_list vars) v).length
      = (file_list.filter (fun file => fieldPresent fs v file)).length) := by
  have hchar := collectField_dataListOf fs file_list vars v hv
  refine ⟨hchar, ?_⟩
  rw [hchar, length_filterMap_eq]
  have hfun : (fun file => (match fs.read file with
      | Except.ok data => lookupField data v
      | Except.error _ => none).isSome)
      = fun file => fieldPresent fs v file := by
    funext file
    cases hr : fs.read file <;> simp [fieldPresent, hr]
  rw [hfun]

/-- Witness for C6: `a.npz` has `x` and `y`, `b.npz` has only `x`; the `y`
column has one row, the `x` column two. -/
theorem missing_field_skipped_witness :
    ((collectField (dataListOf fsTwo ["d/a.npz", "d/b.npz"] ["x", "y"]) "y"
      = ["d/a.npz", "d/b.npz"].filterMap (fun file =>
          match fsTwo.read file with
          | Except.ok data => lookupField data "y"
          | Except.error _ => none))
  ∧ ((collectField (dataListOf fsTwo ["d/a.npz", "d/b.npz"] ["x", "y"]) "y").length
      = (["d/a.npz", "d/b.npz"].filter (fun file => fieldPresent fsTwo "y" file)).length)) :=
  missing_field_skipped fsTwo ["d/a.npz", "d/b.npz"] ["x", "y"] "y" (by simp)

/-- C7: if every contributed array of a field has the same shape, the field is
stored as one stacked fixed-shape float32 array; if two contributed arrays
have distinct shapes, the field keeps the per-file arrays in the object-dtype
(ragged) container. -/
theorem normalizeField_shape_cases (arrs : List NDArray) (s : List Nat)
    (a b : NDArray) :
    (arrs ≠ [] → (∀ x ∈ arrs, x.shape = s) →
      normalizeField arrs
        = Column.uniform
            ⟨arrs.length :: s, Dtype.float32, (arrs.map NDArray.data).flatten⟩)
  ∧ (a ∈ arrs → b ∈ arrs → a.shape ≠ b.shape →
      normalizeField arrs = Column.ragged arrs) := by
  constructor
  · intro hne hall
    have hd : firstDedup (arrs.map NDArray.shape) = [s] := by
      refine firstDedup_const _ s ?_ ?_
      · intro h
        exact hne (List.map_eq_nil_iff.mp h)
      · intro z hz
        rcases List.mem_map.mp hz with ⟨x, hx, rfl⟩
        exact hall x hx
    unfold normalizeField
    rw [hd]
  · intro ha hb hab
    have hma : a.shape ∈ firstDedup (arrs.map NDArray.shape) :=
      (mem_firstDedup _ _).mpr (List.mem_map_of_mem NDArray.shape ha)
    have hmb : b.shape ∈ firstDedup (arrs.map NDArray.shape) :=
      (mem_firstDedup _ _).mpr (List.mem_map_of_mem NDArray.shape hb)
    unfold normalizeField
    cases hd : firstDedup (arrs.map NDArray.shape) with
    | nil => rfl
    | cons u rest =>
      cases rest with
      | nil =>
        exfalso
        rw [hd] at hma hmb
        have ha' : a.shape = u := List.mem_singleton.mp hma
        have hb' : b.shape = u := List.mem_singleton.mp hmb
        exact hab (ha'.trans hb'.symm)
      | cons u2 rest2 => rfl

/-- Witness for C7: two same-shape arrays stack; two distinct-shape arrays
stay ragged. -/
theorem normalizeField_shape_cases_witness :
    (normalizeField [arrA, arrB]
      = Column.uniform
          ⟨[arrA, arrB].length :: [2], Dtype.float32,
           ([arrA, arrB].map NDArray.data).flatten⟩)
  ∧ (normalizeField [arrA, arrC] = Column.ragged [arrA, arrC]) :=
  ⟨(normalizeField_shape_cases [arrA, arrB] [2] arrA arrB).1 (by decide) (by decide),
   (normalizeField_shape_cases [arrA, arrC] [2] arrA arrC).2 (by decide) (by decide)
     (by decide)⟩

/-- C8: `num_files = k` truncates the discovered list to its first `k` entries
(directory-discovery order); an explicit `file_selected` list replaces the
scan result entirely, whatever `num_files` is, and the loader then processes
exactly those files. -/
theorem file_limit_and_explicit_list (fs : FS) (names : List String)
    (folder : String) (k : Nat) (sel : List String) (nf : Option Nat)
    (vars : List String) :
    ((selectFiles names folder (some k) none).length ≤ k)
  ∧ (List.IsPrefix (selectFiles names folder (some k) none)
      (selectFiles names folder none none))
  ∧ (selectFiles names folder nf (some sel) = sel)
  ∧ (fs.listing = some names →
      load_variables_from_npz fs folder vars nf (some sel)
        = Except.ok (buildTable fs sel vars)) := by
  refine ⟨?_, ?_, rfl, ?_⟩
  · show (((names.filter (fun f => f.endsWith ".npz")).map (pathJoin folder)).take k).length ≤ k
    rw [List.length_take]
    exact min_le_left _ _
  · show List.IsPrefix
      (((names.filter (fun f => f.endsWith ".npz")).map (pathJoin folder)).take k)
      ((names.filter (fun f => f.endsWith ".npz")).map (pathJoin folder))
    exact List.take_prefix _ _
  · intro h
    rw [load_variables_from_npz, h]
    rfl

/-- Witness for C8 at a concrete directory listing and explicit list. -/
theorem file_limit_and_explicit_list_witness :
    ((selectFiles ["a.npz", "b.npz"] "d" (some 1) none).length ≤ 1)
  ∧ (List.IsPrefix (selectFiles ["a.npz", "b.npz"] "d" (some 1) none)
      (selectFiles ["a.npz", "b.npz"] "d" none none))
  ∧ (selectFiles ["a.npz", "b.npz"] "d" (some 1) (some ["q.npz"]) = ["q.npz"])
  ∧ (load_variables_from_npz fsTwo "d" ["x"] (some 1) (some ["q.npz"])
      = Except.ok (buildTable fsTwo ["q.npz"] ["x"])) := by
  have h := file_limit_and_explicit_list fsTwo ["a.npz", "b.npz"] "d" 1 ["q.npz"]
    (some 1) ["x"]
  exact ⟨h.1, h.2.1, h.2.2.1, h.2.2.2 rfl⟩

/-- C9 counterexample: the claim asserts the loader raises when an explicit
file list was required but zero valid files were available; on an existing
directory with `file_selected = []` the code instead returns normally, with an
empty column for each requested field. -/
theorem explicit_empty_list_does_not_raise :
    load_variables_from_npz fsEmptyDir "d" ["x"] none (some [])
      = Except.ok [("x", Column.ragged [])] := rfl

/-- C9 (amended): per-file read failures never raise; the loader raises
exactly when the directory does not exist, and with an existing directory it
always returns a table — in particular an explicit file list with zero valid
files yields a normal (all-empty) table rather than an exception. -/
theorem raises_only_on_missing_directory (fs : FS) (folder : String)
    (vars : List String) (nf : Option Nat) (sel : Option (List String))
    (names : List String) :
    (fs.listing = none →
      load_variables_from_npz fs folder vars nf sel
        = Except.error ("FileNotFoundError: " ++ folder))
  ∧ (fs.listing = some names →
      load_variables_from_npz fs folder vars nf sel
        = Except.ok (buildTable fs (selectFiles names folder nf sel) vars)) := by
  constructor <;> intro h <;> rw [load_variables_from_npz, h]

/-- Witness for C9 (amended): a missing directory raises, an existing one
returns a table. -/
theorem raises_only_on_missing_directory_witness :
    (load_variables_from_npz fsNoDir "d" ["x"] none none
      = Except.error ("FileNotFoundError: " ++ "d"))
  ∧ (load_variables_from_npz fsOk "d" ["x"] none none
      = Except.ok (buildTable fsOk (selectFiles ["a.npz"] "d" none none) ["x"])) :=
  ⟨(raises_only_on_missing_directory fsNoDir "d" ["x"] none none []).1 rfl,
   (raises_only_on_missing_directory fsOk "d" ["x"] none none ["a.npz"]).2 rfl⟩

/-- C10: whenever a field's contributed arrays all share one shape, the
stacked column's dtype is float32, regardless of the source arrays' dtypes —
integer-valued fields come back as floats. -/
theorem stacked_dtype_float32 (arrs : List NDArray) (s : List Nat)
    (hne : arrs ≠ []) (hall : ∀ x ∈ arrs, x.shape = s) :
    columnDtype (normalizeField arrs) = some Dtype.float32 := by
  have hd : firstDedup (arrs.map NDArray.shape) = [s] := by
    refine firstDedup_const _ s ?_ ?_
    · intro h
      exact hne (List.map_eq_nil_iff.mp h)
    · intro z hz
      rcases List.mem_map.mp hz with ⟨x, hx, rfl⟩
      exact hall x hx
  unfold normalizeField
  rw [hd]
  rfl

/-- Witness for C10: two int64 arrays of equal shape stack to a float32
column. -/
theorem stacked_dtype_float32_witness :
    columnDtype (normalizeField [arrA, arrB]) = some Dtype.float32 :=
  stacked_dtype_float32 [arrA, arrB] [2] (by decide) (by decide)
